import Mathlib

/-!
Verification of the reactivity core and virtual-tree reconciliation engine
of a Vue-2-style UI library.

The development shallowly embeds the relevant JavaScript source functions:

* `Dep` (publish/subscribe node) — `src/core/observer/dep.js`
* `defineReactive`'s installed setter, `observe`, `set` — `src/core/observer/index.js`
* `Watcher.get` / `addDep` / `cleanupDeps` — `src/core/observer/watcher.js`
* `sameVnode` / `sameInputType` / `updateChildren` — `src/core/vdom/patch.js`
* `parsePath` — `src/core/util/lang.js`

JavaScript values relevant to the claims are modelled by the inductive
`JSVal`; reference identity of objects is modelled by a `Nat` tag.
Machine state (dependency lists, subscriber arrays, the evaluation-context
stack) is passed explicitly.  Fallible code paths (places where the
JavaScript would throw a `TypeError`) return `Option`.
-/

namespace Vue2

/-- Model of a JavaScript value as far as the claims need it: primitives are
carried literally, `nan` is split from other numbers because `NaN` is the
only value with `x !== x`, and non-primitive values are represented by a
reference tag (`obj`), so that `===` on them is reference identity. -/
inductive JSVal where
  | undef
  | nullV
  | boolV (b : Bool)
  | num (n : Int)
  | nan
  | str (s : String)
  | obj (ref : Nat)
deriving DecidableEq

/-- JavaScript strict equality `===`.  `NaN === NaN` is `false`; values of
different runtime types are never strictly equal. -/
def jsStrictEq : JSVal → JSVal → Bool
  | JSVal.undef, JSVal.undef => true
  | JSVal.nullV, JSVal.nullV => true
  | JSVal.boolV a, JSVal.boolV b => a == b
  | JSVal.num a, JSVal.num b => a == b
  | JSVal.str a, JSVal.str b => a == b
  | JSVal.obj a, JSVal.obj b => a == b
  | _, _ => false

/-- The test `x !== x`, which in JavaScript holds exactly for `NaN`. -/
def jsIsNaN : JSVal → Bool
  | JSVal.nan => true
  | _ => false

/-- The value-comparison used by the reactive setter:
`newVal === value || (newVal !== newVal && value !== value)`. -/
def jsSameValue (a b : JSVal) : Bool :=
  jsStrictEq a b || (jsIsNaN a && jsIsNaN b)

/-! ### The reactive property setter (`defineReactive`, observer/index.js)

`defineReactive` captures a possibly pre-existing accessor pair of the key
and installs `reactiveGetter`/`reactiveSetter`.  The state of one reactive
property is modelled by `ReactiveProp`: `getter` is `some g` when a
pre-existing getter was captured (modelled by the value `g` it returns),
`hasSetter` records whether a pre-existing setter was captured, and `val`
is the closed-over backing slot. -/

structure ReactiveProp where
  getter : Option JSVal
  hasSetter : Bool
  val : JSVal
deriving DecidableEq

/-- The installed setter (`reactiveSetter`).  Returns the state after the
write together with the number of `dep.notify()` calls the write issued.
Mirrors the source: read the current value (pre-existing getter first),
short-circuit on `newVal === value || (newVal !== newVal && value !== value)`,
silently drop the write when a pre-existing getter has no companion setter
(`if (getter && !setter) return`), otherwise commit through the pre-existing
setter or the backing slot and call `dep.notify()` once. -/
def reactiveSetter (p : ReactiveProp) (newVal : JSVal) : ReactiveProp × Nat :=
  let value := match p.getter with
    | some g => g
    | none => p.val
  if jsSameValue newVal value then
    (p, 0)
  else if p.getter.isSome && !p.hasSetter then
    (p, 0)
  else if p.hasSetter then
    (p, 1)
  else
    ({ p with val := newVal }, 1)

/-! ### Dependency notification order (`Dep.notify`, observer/dep.js)

`notify()` takes a snapshot `this.subs.slice()`, sorts it by watcher id
ascending only when `process.env.NODE_ENV !== 'production' && !config.async`,
and then calls `update()` on each entry in order.  Watchers are represented
by their numeric ids; the returned list is the sequence of watchers on which
`update()` is invoked, in invocation order. -/
def depNotifyOrder (isProduction : Bool) (configAsync : Bool) (subs : List Nat) : List Nat :=
  if !isProduction && !configAsync then
    subs.mergeSort (fun a b => a ≤ b)
  else
    subs

/-! ### Watcher dependency bookkeeping (`Watcher`, observer/watcher.js)

Everything the claims about `addDep`/`cleanupDeps` need is the interplay
of one watcher with the world of `Dep`s, identified by their numeric ids.
`WatcherState` carries the watcher's four collections (`deps`, `newDeps`,
`depIds`, `newDepIds`; the two id sets are modelled as lists with
membership tests, matching `SimpleSet`) together with `subs`: the multiset
of dep ids in whose subscriber array this watcher currently appears, with
multiplicity (`dep.addSub(this)` appends the watcher to `dep.subs`,
`dep.removeSub(this)` removes its first occurrence). -/

structure WatcherState where
  deps : List Nat
  newDeps : List Nat
  depIds : List Nat
  newDepIds : List Nat
  subs : List Nat
deriving DecidableEq

/-- `Watcher.addDep(dep)`: if the dep id is not in `newDepIds`, record it
in `newDepIds` and `newDeps`; if it is additionally absent from `depIds`,
call `dep.addSub(this)` (modelled by appending the dep id to `subs`). -/
def addDep (s : WatcherState) (id : Nat) : WatcherState :=
  if id ∈ s.newDepIds then s
  else
    let s1 := { s with newDepIds := s.newDepIds ++ [id], newDeps := s.newDeps ++ [id] }
    if id ∈ s1.depIds then s1
    else { s1 with subs := s1.subs ++ [id] }

/-- `Watcher.cleanupDeps()`: walk `deps` from the last entry down and call
`dep.removeSub(this)` on every dep whose id is absent from `newDepIds`;
then swap the previous and new collections and clear the new ones. -/
def cleanupDeps (s : WatcherState) : WatcherState :=
  { deps := s.newDeps
    newDeps := []
    depIds := s.newDepIds
    newDepIds := []
    subs := s.deps.foldr (fun d acc => if d ∈ s.newDepIds then acc else acc.erase d) s.subs }

/-- One evaluation of the watcher (`get()`): the getter runs with this
watcher as `Dep.target`, so every reactive read calls `dep.depend()`,
i.e. `addDep` on the dep touched; `touched` is that sequence of dep ids,
in read order.  Afterwards `cleanupDeps()` runs. -/
def watcherEval (s : WatcherState) (touched : List Nat) : WatcherState :=
  cleanupDeps (touched.foldl addDep s)

/-- Well-formedness of a watcher's bookkeeping between evaluations:
`deps` is duplicate-free, `depIds` holds exactly those ids, the new
collections are empty, and the watcher sits exactly once in the
subscriber array of each dep of `deps` and in no other. -/
def WatcherWF (s : WatcherState) : Prop :=
  s.deps.Nodup ∧ s.depIds = s.deps ∧ s.newDeps = [] ∧ s.newDepIds = [] ∧
  s.subs.Nodup ∧ (∀ d ∈ s.subs, d ∈ s.deps) ∧ (∀ d ∈ s.deps, d ∈ s.subs)

/-! ### `set` on mapping targets (observer/index.js)

`set(target, key, val)` on a non-array target.  The target is modelled by
its own enumerable properties (`own`, an association list), the keys its
non-`Object.prototype` prototype chain would answer for (`protoKeys`),
its `_isVue` flag and, when observed, the observer's `vmCount`
(`ob = some vmCount`). -/

structure MapTarget where
  own : List (String × JSVal)
  protoKeys : List String
  isVue : Bool
  ob : Option Nat
deriving DecidableEq

/-- Keys answered by `key in Object.prototype`. -/
def objectProtoKeys : List String :=
  ["constructor", "hasOwnProperty", "isPrototypeOf", "propertyIsEnumerable",
   "toLocaleString", "toString", "valueOf",
   "__defineGetter__", "__defineSetter__", "__lookupGetter__", "__lookupSetter__", "__proto__"]

/-- The guard `key in target && !(key in Object.prototype)` of `set`:
`in` walks the whole prototype chain, which for a plain object means the
own keys, the custom-prototype keys, and `Object.prototype`'s keys. -/
def hasKeyInChain (t : MapTarget) (key : String) : Bool :=
  (t.own.any (fun kv => kv.1 == key) || t.protoKeys.contains key
    || objectProtoKeys.contains key)
  && !(objectProtoKeys.contains key)

/-- Plain property assignment `target[key] = val`: replaces the first own
binding of `key` or creates one. -/
def upsertAssoc : List (String × JSVal) → String → JSVal → List (String × JSVal)
  | [], k, v => [(k, v)]
  | (k0, v0) :: rest, k, v =>
    if k0 = k then (k, v) :: rest else (k0, v0) :: upsertAssoc rest k v

/-- Assignment of an own property on the target. -/
def assignOwn (t : MapTarget) (key : String) (val : JSVal) : MapTarget :=
  { t with own := upsertAssoc t.own key val }

/-- Whether the `target._isVue || (ob && ob.vmCount)` guard fires. -/
def obIsRoot : Option Nat → Bool
  | some c => c != 0
  | none => false

/-- Outcome of one `set` call: the target afterwards, how many times
`ob.dep.notify()` ran, whether `defineReactive` was invoked for the key,
and the returned value. -/
structure SetResult where
  target : MapTarget
  notified : Nat
  definedReactive : Bool
  ret : JSVal
deriving DecidableEq

/-- `set(target, key, val)` for a mapping target (the array branch is not
taken for these).  Mirrors the source order: the `in`-minus-`Object.prototype`
guard first (plain assignment), then the Vue-instance/root-data guard
(warn and return), then the unobserved case (plain assignment), and finally
`defineReactive(ob.value, key, val)` followed by exactly one
`ob.dep.notify()`. -/
def setField (t : MapTarget) (key : String) (val : JSVal) : SetResult :=
  if hasKeyInChain t key then
    { target := assignOwn t key val, notified := 0, definedReactive := false, ret := val }
  else if t.isVue || obIsRoot t.ob then
    { target := t, notified := 0, definedReactive := false, ret := val }
  else
    match t.ob with
    | none => { target := assignOwn t key val, notified := 0, definedReactive := false, ret := val }
    | some _ => { target := assignOwn t key val, notified := 1, definedReactive := true, ret := val }

/-! ### `Watcher.get` error handling (observer/watcher.js)

`get()` pushes the watcher on the evaluation-context stack, runs the
getter, routes a thrown error to `handleError` when `this.user` is set
(the call then returns `undefined`), rethrows it otherwise, and in a
`finally` block pops the context and runs `cleanupDeps()` in both cases.
The getter's outcome is an input (`Except Unit JSVal`, `.error` for a
throw); the `deep` traversal only performs reads and is omitted. -/

structure EvalContext where
  targetStack : List Nat
  cleanups : Nat
  handled : Nat
deriving DecidableEq

/-- One run of `Watcher.get` for watcher `wid`: result (`.error` when the
exception propagates to the caller) and context afterwards. -/
def watcherGetRun (user : Bool) (wid : Nat) (getterResult : Except Unit JSVal)
    (ctx : EvalContext) : Except Unit JSVal × EvalContext :=
  let pushed := ctx.targetStack ++ [wid]
  match getterResult with
  | Except.ok v =>
    (Except.ok v,
     { targetStack := pushed.dropLast, cleanups := ctx.cleanups + 1, handled := ctx.handled })
  | Except.error _ =>
    if user then
      (Except.ok JSVal.undef,
       { targetStack := pushed.dropLast, cleanups := ctx.cleanups + 1, handled := ctx.handled + 1 })
    else
      (Except.error (),
       { targetStack := pushed.dropLast, cleanups := ctx.cleanups + 1, handled := ctx.handled })

/-! ### `observe` (observer/index.js)

The observable aspects of one raw value: whether it is a non-primitive
(`isObject`), a `VNode`, already carries an own `__ob__` (modelled by the
observer's identity tag `obRef`), and the guards of the creation branch.
`observe` threads a fresh-identity counter so that "creates a new
Observer" is visible as consuming an identity. -/

structure RawValue where
  isObjectV : Bool
  isVNode : Bool
  obRef : Option Nat
  isArrayV : Bool
  isPlainObjectV : Bool
  isExtensible : Bool
  isVue : Bool
deriving DecidableEq

/-- `observe(value)`: returns the observer attached to the value (if any),
the value afterwards (the constructor `def(value, '__ob__', this)` marks
it), and the next fresh observer identity.  The `asRootData`/`vmCount`
accounting is irrelevant to the wrapping claims and omitted. -/
def observe (shouldObserve serverRendering : Bool) (v : RawValue) (nextId : Nat) :
    Option Nat × RawValue × Nat :=
  if !v.isObjectV || v.isVNode then
    (none, v, nextId)
  else
    match v.obRef with
    | some i => (some i, v, nextId)
    | none =>
      if shouldObserve && !serverRendering && (v.isArrayV || v.isPlainObjectV)
          && v.isExtensible && !v.isVue then
        (some nextId, { v with obRef := some nextId }, nextId + 1)
      else
        (none, v, nextId)

/-! ### `parsePath` (util/lang.js)

`parsePath` rejects a path containing any character outside
`unicodeRegExp` / `.` / `$` / `_` / digits (the `bailRE` test), splits the
rest on `.`, and returns a getter that walks the segments, bailing out
with `undefined` at the first falsy intermediate value.

Values reachable by a path walk are modelled structurally (`PathVal`):
objects carry their enumerable string-keyed fields.  Property access on
`undefined`/`null` throws in JavaScript, so the access primitive is
`Option`-valued; on other primitives it yields `undefined` (built-in
members of boxed primitives are not modelled — the claims only concern
the object chain and totality). -/

inductive PathVal where
  | undef
  | nullV
  | boolV (b : Bool)
  | num (n : Int)
  | nan
  | str (s : String)
  | obj (fields : List (String × PathVal))

/-- JavaScript truthiness. -/
def truthyP : PathVal → Bool
  | PathVal.undef => false
  | PathVal.nullV => false
  | PathVal.boolV b => b
  | PathVal.num n => n != 0
  | PathVal.nan => false
  | PathVal.str s => s ≠ ""
  | PathVal.obj _ => true

/-- First binding of a key in an object's field list. -/
def lookupField : List (String × PathVal) → String → Option PathVal
  | [], _ => none
  | (k0, v0) :: rest, k => if k0 = k then some v0 else lookupField rest k

/-- The property read `obj[segment]`: throws (`none`) on `undefined` and
`null`, looks up the field on objects (absent fields read as `undefined`),
and reads as `undefined` on remaining primitives. -/
def getPropP : PathVal → String → Option PathVal
  | PathVal.undef, _ => none
  | PathVal.nullV, _ => none
  | PathVal.obj fields, k =>
    some (match lookupField fields k with
          | some v => v
          | none => PathVal.undef)
  | _, _ => some PathVal.undef

/-- The getter closure returned by `parsePath`:
`for (...) { if (!obj) return; obj = obj[segments[i]] } return obj`.
`none` marks a thrown `TypeError`. -/
def pathGetter : List String → PathVal → Option PathVal
  | [], v => some v
  | s :: rest, v =>
    if truthyP v then (getPropP v s).bind (pathGetter rest)
    else some PathVal.undef

/-- Characters admitted by `bailRE`'s complemented class: the
`unicodeRegExp` ranges plus `.`, `$`, `_` and digits. -/
def allowedPathChar (c : Char) : Bool :=
  let n := c.toNat
  (0x61 ≤ n && n ≤ 0x7A) || (0x41 ≤ n && n ≤ 0x5A) ||
  n == 0xB7 || (0xC0 ≤ n && n ≤ 0xD6) || (0xD8 ≤ n && n ≤ 0xF6) ||
  (0xF8 ≤ n && n ≤ 0x37D) || (0x37F ≤ n && n ≤ 0x1FFF) ||
  (0x200C ≤ n && n ≤ 0x200D) || (0x203F ≤ n && n ≤ 0x2040) ||
  (0x2070 ≤ n && n ≤ 0x218F) || (0x2C00 ≤ n && n ≤ 0x2FEF) ||
  (0x3001 ≤ n && n ≤ 0xD7FF) || (0xF900 ≤ n && n ≤ 0xFDCF) ||
  (0xFDF0 ≤ n && n ≤ 0xFFFD) ||
  c == '.' || c == '$' || c == '_' || ('0' ≤ c && c ≤ '9')

/-- JavaScript `path.split('.')` on the character list
(`"".split('.')` is `[""]`, a trailing dot yields a trailing `""`). -/
def splitSegsAux : List Char → List Char → List String
  | [], acc => [String.mk acc.reverse]
  | c :: rest, acc =>
    if c = '.' then String.mk acc.reverse :: splitSegsAux rest []
    else splitSegsAux rest (c :: acc)

/-- `path.split('.')`. -/
def splitSegs (path : String) : List String :=
  splitSegsAux path.toList []

/-- `parsePath(path)`: `none` when `bailRE` matches (some character of the
path is outside the admitted class), otherwise the segment list captured
by the returned getter closure. -/
def parsePath (path : String) : Option (List String) :=
  if path.toList.all allowedPathChar then some (splitSegs path) else none

/-! ### `sameVnode` / `sameInputType` (vdom/patch.js)

One virtual node, restricted to the fields the identity check and the
children diff read: `key`, `tag`, `isComment`, the presence of `data`
and the `data.attrs.type` chain, `isAsyncPlaceholder` and `asyncFactory`.
An async factory is its reference identity plus whether its `error`
property is defined. -/

structure AsyncFactory where
  fid : Nat
  errorDefined : Bool
deriving DecidableEq

structure VNodeAttrs where
  typeAttr : Option String
deriving DecidableEq

structure VNodeData where
  attrs : Option VNodeAttrs
deriving DecidableEq

structure VNodeM where
  key : JSVal
  tag : Option String
  isComment : Bool
  data : Option VNodeData
  isAsyncPlaceholder : Bool
  asyncFactory : Option AsyncFactory
deriving DecidableEq

/-- List of text-input `type`s (`isTextInputType`, from
`web/util/element.js`: `text,number,password,search,email,tel,url`);
anything that is not one of these strings — including the `false` and
`undefined` a missing attrs chain produces — is not a text input type. -/
def isTextInputType : JSVal → Bool
  | JSVal.str s => ["text", "number", "password", "search", "email", "tel", "url"].contains s
  | _ => false

/-- The value of `isDef(i = a.data) && isDef(i = i.attrs) && i.type`:
`false` when the chain stops at `data` or `attrs` (the `&&` chain yields
the boolean), the raw `type` attribute otherwise (which is `undefined`
when absent). -/
def inputTypeOf (a : VNodeM) : JSVal :=
  match a.data with
  | none => JSVal.boolV false
  | some d =>
    match d.attrs with
    | none => JSVal.boolV false
    | some at1 =>
      match at1.typeAttr with
      | none => JSVal.undef
      | some s => JSVal.str s

/-- `sameInputType(a, b)`: vacuously true unless `a` is an `<input>`;
otherwise the two `type` chains must be strictly equal or both
text-input categories. -/
def sameInputType (a b : VNodeM) : Bool :=
  if a.tag ≠ some "input" then true
  else
    jsStrictEq (inputTypeOf a) (inputTypeOf b)
    || (isTextInputType (inputTypeOf a) && isTextInputType (inputTypeOf b))

/-- JavaScript `a.asyncFactory === b.asyncFactory`: reference identity,
with two absent factories strictly equal (`undefined === undefined`). -/
def optFacEq : Option AsyncFactory → Option AsyncFactory → Bool
  | none, none => true
  | some f, some g => f == g
  | _, _ => false

/-- `sameVnode(a, b)`, with the `&&`/`||` evaluation order of the source
made explicit.  The result is `none` exactly where the JavaScript would
throw: both factories absent while `a` is an async placeholder makes
`b.asyncFactory.error` a read on `undefined`. -/
def sameVnode (a b : VNodeM) : Option Bool :=
  if jsStrictEq a.key b.key then
    if a.tag == b.tag && a.isComment == b.isComment
        && a.data.isSome == b.data.isSome && sameInputType a b then
      some true
    else if a.isAsyncPlaceholder then
      if optFacEq a.asyncFactory b.asyncFactory then
        match b.asyncFactory with
        | some f => some (!f.errorDefined)
        | none => none
      else some false
    else some false
  else some false

/-! ### `updateChildren` (vdom/patch.js)

The two-ended keyed children diff, instrumented with the backend
operations it issues.  `patchVnode` on two "same" leaf nodes touches no
structure at the parent level, so it contributes no operation; the three
`nodeOps.insertBefore` call sites of the loop are logged as `move`, each
`createElm` as `create`, and each removal performed by `removeVnodes` as
`remove` (operations are tagged with the key of the node concerned).
Old children slots are `Option VNodeM` because key-based moves null out
the matched slot (`oldCh[idxInOld] = undefined`).  Indices are `Int`
because the end pointers retreat below the start pointers.  A `none`
result marks a code path on which the JavaScript would throw; the claims
are evaluated on runs where this does not occur. -/

inductive PatchOp where
  | move (key : JSVal)
  | create (key : JSVal)
  | remove (key : JSVal)
deriving DecidableEq

/-- Indexed read `list[i]` where `i` may be out of range (JS `undefined`). -/
def jgetV (l : List (Option VNodeM)) (i : Int) : Option (Option VNodeM) :=
  if i < 0 then none else l[i.toNat]?

/-- Indexed read on the new-children list. -/
def jgetN (l : List VNodeM) (i : Int) : Option VNodeM :=
  if i < 0 then none else l[i.toNat]?

/-- Whether a slot read is `undefined` (out of range, or a nulled hole). -/
def isUndefSlot : Option (Option VNodeM) → Bool
  | some (some _) => false
  | _ => true

/-- JavaScript property-key coercion for the `oldKeyToIdx` object. -/
def jsKeyString : JSVal → String
  | JSVal.undef => "undefined"
  | JSVal.nullV => "null"
  | JSVal.boolV b => cond b "true" "false"
  | JSVal.num n => toString n
  | JSVal.nan => "NaN"
  | JSVal.str s => s
  | JSVal.obj _ => "object"

/-- `isDef` on a key (`key !== undefined && key !== null`). -/
def isDefKey : JSVal → Bool
  | JSVal.undef => false
  | JSVal.nullV => false
  | _ => true

/-- Store a binding in the key map (`map[key] = i` overwrites). -/
def kmStore : List (String × Int) → String → Int → List (String × Int)
  | [], k, i => [(k, i)]
  | (k0, i0) :: rest, k, i =>
    if k0 = k then (k, i) :: rest else (k0, i0) :: kmStore rest k i

/-- Key map lookup (`map[key]`, `none` for an absent binding). -/
def kmFind : List (String × Int) → String → Option Int
  | [], _ => none
  | (k0, i0) :: rest, k => if k0 = k then some i0 else kmFind rest k

/-- The inclusive index range `[b, e]` (empty when `e < b`). -/
def intRange (b e : Int) : List Int :=
  (List.range (e + 1 - b).toNat).map (fun k => b + (k : Int))

/-- `createKeyToOldIdx(children, beginIdx, endIdx)`: maps each defined key
in the range to its index.  `none` when a slot in the range is `undefined`
(the JavaScript reads `children[i].key` unguarded). -/
def createKeyToOldIdx (oldCh : List (Option VNodeM)) (b e : Int) :
    Option (List (String × Int)) :=
  (intRange b e).foldl
    (fun acc i =>
      match acc with
      | none => none
      | some m =>
        match jgetV oldCh i with
        | some (some v) =>
          some (if isDefKey v.key then kmStore m (jsKeyString v.key) i else m)
        | _ => none)
    (some [])

/-- `findIdxInOld(node, oldCh, start, end)`: first index in `[start, end)`
holding a defined vnode that is `sameVnode` to `node`; `none` in the outer
layer marks a `sameVnode` throw, the inner `Option` is the JS
`undefined`-or-index result. -/
def findIdxInOld (node : VNodeM) (oldCh : List (Option VNodeM)) (start endI : Int) :
    Option (Option Int) :=
  (intRange start (endI - 1)).foldl
    (fun acc i =>
      match acc with
      | none => none
      | some (some j) => some (some j)
      | some none =>
        match jgetV oldCh i with
        | some (some c) =>
          match sameVnode node c with
          | none => none
          | some true => some (some i)
          | some false => some none
        | _ => some none)
    (some none)

/-- Loop state of `updateChildren`: the (mutated) old children array, the
four pointers, the lazily built `oldKeyToIdx` map, and the operation log
so far. -/
structure DiffState where
  oldCh : List (Option VNodeM)
  oldS : Int
  oldE : Int
  newS : Int
  newE : Int
  keyMap : Option (List (String × Int))
  ops : List PatchOp
deriving DecidableEq

/-- The body of `updateChildren`'s `while` loop, run to completion on
`fuel` (each iteration strictly shrinks one of the two ranges, so any
fuel of at least `oldCh.length + newCh.length + 1` completes the loop on
the runs the claims evaluate).  The `canMove` flag is true: `removeOnly`
is not set for ordinary patches. -/
def updateChildrenLoop (newCh : List VNodeM) : Nat → DiffState → Option DiffState
  | 0, _ => none
  | Nat.succ fuel, st =>
    if st.oldS > st.oldE || st.newS > st.newE then some st
    else
      match jgetV st.oldCh st.oldS with
      | none => none
      | some none => updateChildrenLoop newCh fuel { st with oldS := st.oldS + 1 }
      | some (some oldStartVnode) =>
        match jgetV st.oldCh st.oldE with
        | none => none
        | some none => updateChildrenLoop newCh fuel { st with oldE := st.oldE - 1 }
        | some (some oldEndVnode) =>
          match jgetN newCh st.newS, jgetN newCh st.newE with
          | some newStartVnode, some newEndVnode =>
            match sameVnode oldStartVnode newStartVnode with
            | none => none
            | some true =>
              updateChildrenLoop newCh fuel
                { st with oldS := st.oldS + 1, newS := st.newS + 1 }
            | some false =>
              match sameVnode oldEndVnode newEndVnode with
              | none => none
              | some true =>
                updateChildrenLoop newCh fuel
                  { st with oldE := st.oldE - 1, newE := st.newE - 1 }
              | some false =>
                match sameVnode oldStartVnode newEndVnode with
                | none => none
                | some true =>
                  updateChildrenLoop newCh fuel
                    { st with ops := st.ops ++ [PatchOp.move oldStartVnode.key],
                              oldS := st.oldS + 1, newE := st.newE - 1 }
                | some false =>
                  match sameVnode oldEndVnode newStartVnode with
                  | none => none
                  | some true =>
                    updateChildrenLoop newCh fuel
                      { st with ops := st.ops ++ [PatchOp.move oldEndVnode.key],
                                oldE := st.oldE - 1, newS := st.newS + 1 }
                  | some false =>
                    match (match st.keyMap with
                           | some m => some m
                           | none => createKeyToOldIdx st.oldCh st.oldS st.oldE) with
                    | none => none
                    | some km =>
                      match (if isDefKey newStartVnode.key then
                               some (kmFind km (jsKeyString newStartVnode.key))
                             else
                               findIdxInOld newStartVnode st.oldCh st.oldS st.oldE) with
                      | none => none
                      | some none =>
                        updateChildrenLoop newCh fuel
                          { st with keyMap := some km,
                                    ops := st.ops ++ [PatchOp.create newStartVnode.key],
                                    newS := st.newS + 1 }
                      | some (some idxInOld) =>
                        match jgetV st.oldCh idxInOld with
                        | some (some vnodeToMove) =>
                          match sameVnode vnodeToMove newStartVnode with
                          | none => none
                          | some true =>
                            updateChildrenLoop newCh fuel
                              { st with oldCh := st.oldCh.set idxInOld.toNat none,
                                        keyMap := some km,
                                        ops := st.ops ++ [PatchOp.move vnodeToMove.key],
                                        newS := st.newS + 1 }
                          | some false =>
                            updateChildrenLoop newCh fuel
                              { st with keyMap := some km,
                                        ops := st.ops ++ [PatchOp.create newStartVnode.key],
                                        newS := st.newS + 1 }
                        | _ => none
          | _, _ => none

/-- `updateChildren(parentElm, oldCh, newCh, ...)`: run the loop, then
either `addVnodes` the remaining new range (`createElm` per node) or
`removeVnodes` the remaining old range (skipping `undefined` holes). -/
def updateChildren (oldList newList : List VNodeM) : Option (List PatchOp) :=
  let st0 : DiffState :=
    { oldCh := oldList.map some, oldS := 0, oldE := (oldList.length : Int) - 1,
      newS := 0, newE := (newList.length : Int) - 1, keyMap := none, ops := [] }
  match updateChildrenLoop newList (oldList.length + newList.length + 1) st0 with
  | none => none
  | some st =>
    if st.oldS > st.oldE then
      some (st.ops ++ (intRange st.newS st.newE).filterMap
        (fun i => (jgetN newList i).map (fun v => PatchOp.create v.key)))
    else if st.newS > st.newE then
      some (st.ops ++ (intRange st.oldS st.oldE).filterMap
        (fun i =>
          match jgetV st.oldCh i with
          | some (some v) => some (PatchOp.remove v.key)
          | _ => none))
    else some st.ops

/-- Number of `insertBefore` move operations in a log. -/
def countMoves (ops : List PatchOp) : Nat :=
  (ops.filter (fun op => match op with | PatchOp.move _ => true | _ => false)).length

/-- Number of element creations in a log. -/
def countCreates (ops : List PatchOp) : Nat :=
  (ops.filter (fun op => match op with | PatchOp.create _ => true | _ => false)).length

/-- Number of removals in a log. -/
def countRemoves (ops : List PatchOp) : Nat :=
  (ops.filter (fun op => match op with | PatchOp.remove _ => true | _ => false)).length

/-! ## Theorems -/

/-- The value the installed accessor currently reads:
`getter ? getter.call(obj) : val`. -/
def readValue (p : ReactiveProp) : JSVal :=
  match p.getter with
  | some g => g
  | none => p.val

/-- A reactive property wrapping a pre-existing getter with no setter
(a read-only passthrough), currently reading `0`. -/
def roProp : ReactiveProp :=
  { getter := some (JSVal.num 0), hasSetter := false, val := JSVal.num 0 }

/-- C1 (counterexample): on a reactive property installed over a
pre-existing getter with no setter, writing the strictly distinct value
`1` neither commits the value nor calls `dep.notify()` — the claim's
"any strictly distinct value commits the new value and calls
dep.notify() exactly once" fails there. -/
theorem reactiveSetter_readonly_drops_write :
    jsSameValue (JSVal.num 1) (readValue roProp) = false ∧
    reactiveSetter roProp (JSVal.num 1) = (roProp, 0) := by
  constructor <;> rfl

/-- C1 (amended): the setter never commits nor notifies when the new
value equals the current one under strict equality or both are `NaN`;
on a read-only passthrough (pre-existing getter, no setter) a distinct
write is silently dropped, also without notifying; and on a plain data
slot (no pre-existing accessors) a distinct write commits the new value
and notifies exactly once. -/
theorem reactiveSetter_cases (p : ReactiveProp) (newVal : JSVal) :
    (jsSameValue newVal (readValue p) = true → reactiveSetter p newVal = (p, 0)) ∧
    (jsSameValue newVal (readValue p) = false → p.getter.isSome = true → p.hasSetter = false →
      reactiveSetter p newVal = (p, 0)) ∧
    (jsSameValue newVal (readValue p) = false → p.getter = none → p.hasSetter = false →
      reactiveSetter p newVal = ({ p with val := newVal }, 1)) := by
  refine ⟨fun h => ?_, fun h hg hs => ?_, fun h hg hs => ?_⟩
  · cases hp : p.getter <;>
      simp [reactiveSetter, readValue, hp] at h ⊢ <;> simp [h]
  · cases hp : p.getter <;>
      simp [reactiveSetter, readValue, hp] at h hg ⊢
    simp [h, hs]
  · cases hp : p.getter <;>
      simp [reactiveSetter, readValue, hp] at h hg ⊢
    simp [h, hs]

/-- C1 (witness for the amended theorem): equal write, `NaN` write and
distinct write on a plain data slot behave as stated. -/
theorem reactiveSetter_cases_witness :
    reactiveSetter { getter := none, hasSetter := false, val := JSVal.num 0 } (JSVal.num 0)
      = ({ getter := none, hasSetter := false, val := JSVal.num 0 }, 0) ∧
    reactiveSetter { getter := none, hasSetter := false, val := JSVal.nan } JSVal.nan
      = ({ getter := none, hasSetter := false, val := JSVal.nan }, 0) ∧
    reactiveSetter { getter := none, hasSetter := false, val := JSVal.num 0 } (JSVal.num 1)
      = ({ getter := none, hasSetter := false, val := JSVal.num 1 }, 1) :=
  ⟨(reactiveSetter_cases _ _).1 (by decide),
   (reactiveSetter_cases _ _).1 (by decide),
   (reactiveSetter_cases _ _).2.2 (by decide) rfl rfl⟩

/-- C2 (counterexample): in a production build with `config.async`
disabled, `notify()` does not sort the snapshot, so two watchers
subscribed in descending id order are updated in subscription order
`[2, 1]`, not ascending id order — the claim, which conditions only on
the synchronous mode, fails there. -/
theorem depNotify_production_sync_unsorted :
    depNotifyOrder true false [2, 1] = [2, 1] ∧
    ¬ List.Sorted (· ≤ ·) (depNotifyOrder true false [2, 1]) := by
  constructor
  · rfl
  · decide

/-- C2 (amended): in a non-production build running in synchronous
(non-async-batched) mode, `notify()` invokes `update()` on exactly the
subscribed watchers in strictly ascending id order, regardless of the
order in which they were added to the subscriber list. -/
theorem depNotify_dev_sync_sorted (subs : List Nat) (h : subs.Nodup) :
    (depNotifyOrder false false subs).Perm subs ∧
    List.Sorted (· < ·) (depNotifyOrder false false subs) := by
  have hperm : (depNotifyOrder false false subs).Perm subs := by
    simpa [depNotifyOrder] using List.mergeSort_perm subs (fun a b => a ≤ b)
  refine ⟨hperm, ?_⟩
  have hs : List.Sorted (· ≤ ·) (depNotifyOrder false false subs) := by
    simpa [depNotifyOrder] using List.sorted_mergeSort' (α := Nat) subs
  exact hs.lt_of_le (hperm.nodup_iff.mpr h)

/-- C2 (witness): watchers with ids 1 and 2 subscribed in the order
`[2, 1]` are notified as `[1, 2]` in a development build in synchronous
mode. -/
theorem depNotify_dev_sync_sorted_witness :
    (depNotifyOrder false false [2, 1]).Perm [2, 1] ∧
    List.Sorted (· < ·) (depNotifyOrder false false [2, 1]) :=
  depNotify_dev_sync_sorted [2, 1] (by decide)

/-- Keyed leaf element with key `"a"`. -/
def nodeA : VNodeM :=
  { key := JSVal.str "a", tag := some "div", isComment := false,
    data := some { attrs := none }, isAsyncPlaceholder := false, asyncFactory := none }

/-- Keyed leaf element with key `"b"`. -/
def nodeB : VNodeM :=
  { key := JSVal.str "b", tag := some "div", isComment := false,
    data := some { attrs := none }, isAsyncPlaceholder := false, asyncFactory := none }

/-- Keyed leaf element with key `"c"`. -/
def nodeC : VNodeM :=
  { key := JSVal.str "c", tag := some "div", isComment := false,
    data := some { attrs := none }, isAsyncPlaceholder := false, asyncFactory := none }

/-- C7: diffing keyed children `[a, b, c]` against `[c, b, a]` issues
exactly two `insertBefore` move operations (for `a` then `b`) and no
element creation and no removal. -/
theorem updateChildren_reverse_two_moves :
    updateChildren [nodeA, nodeB, nodeC] [nodeC, nodeB, nodeA]
      = some [PatchOp.move (JSVal.str "a"), PatchOp.move (JSVal.str "b")] ∧
    (updateChildren [nodeA, nodeB, nodeC] [nodeC, nodeB, nodeA]).map countMoves = some 2 ∧
    (updateChildren [nodeA, nodeB, nodeC] [nodeC, nodeB, nodeA]).map countCreates = some 0 ∧
    (updateChildren [nodeA, nodeB, nodeC] [nodeC, nodeB, nodeA]).map countRemoves = some 0 := by
  refine ⟨?_, ?_, ?_, ?_⟩ <;> rfl

/-- C8: when the getter throws, a user watcher routes the error to
`handleError` and `get()` returns normally (with `undefined`), while a
non-user watcher propagates the exception to its caller; in both cases —
and on normal returns — the `finally` block has popped the evaluation
context back to what it was and has run `cleanupDeps` exactly once. -/
theorem watcherGet_error_routing (user : Bool) (wid : Nat) (ctx : EvalContext) :
    watcherGetRun true wid (Except.error ()) ctx
      = (Except.ok JSVal.undef,
         { targetStack := ctx.targetStack, cleanups := ctx.cleanups + 1,
           handled := ctx.handled + 1 }) ∧
    watcherGetRun false wid (Except.error ()) ctx
      = (Except.error (),
         { targetStack := ctx.targetStack, cleanups := ctx.cleanups + 1,
           handled := ctx.handled }) ∧
    (∀ v, watcherGetRun user wid (Except.ok v) ctx
      = (Except.ok v,
         { targetStack := ctx.targetStack, cleanups := ctx.cleanups + 1,
           handled := ctx.handled })) := by
  refine ⟨?_, ?_, fun v => ?_⟩ <;> simp [watcherGetRun]

/-- C9: `observe` is idempotent — a value already carrying an own
`__ob__` is answered with that very observer and nothing new is created
(the fresh-identity counter does not advance), and re-observing the
value returned by any `observe` call reproduces that call's result
exactly. -/
theorem observe_idempotent (so sr : Bool) (v : RawValue) (n : Nat) :
    observe so sr (observe so sr v n).2.1 (observe so sr v n).2.2 = observe so sr v n ∧
    (∀ i, v.obRef = some i → v.isObjectV = true → v.isVNode = false →
      observe so sr v n = (some i, v, n)) := by
  constructor
  · cases hobj : v.isObjectV
    · simp [observe, hobj]
    · cases hvn : v.isVNode
      · cases hob : v.obRef
        · by_cases hg : (so && !sr && (v.isArrayV || v.isPlainObjectV)
              && v.isExtensible && !v.isVue) = true
          · simp [observe, hobj, hvn, hob, hg]
          · simp [observe, hobj, hvn, hob, hg]
        · simp [observe, hobj, hvn, hob]
      · simp [observe, hobj, hvn]
  · intro i hob hobj hvn
    simp [observe, hobj, hvn, hob]

/-- Plain object already carrying observer number 3. -/
def obValue : RawValue :=
  { isObjectV := true, isVNode := false, obRef := some 3,
    isArrayV := false, isPlainObjectV := true, isExtensible := true, isVue := false }

/-- C9 (witness): observing a value that already carries observer 3
returns observer 3, leaves the value alone and creates nothing. -/
theorem observe_idempotent_witness :
    observe true false obValue 5 = (some 3, obValue, 5) :=
  (observe_idempotent true false obValue 5).2 3 rfl rfl rfl

/-- C10: the getter compiled from any path `parsePath` accepts is total —
on every value it returns without throwing, and on any value chain it
yields `undefined` as soon as the next value to dereference is falsy. -/
theorem parsePath_getter_total (p : String) (segs : List String)
    (h : parsePath p = some segs) :
    (∀ v, (pathGetter segs v).isSome = true) ∧
    (∀ v s rest, segs = s :: rest → truthyP v = false →
      pathGetter segs v = some PathVal.undef) := by
  constructor
  · intro v
    clear h
    induction segs generalizing v with
    | nil => simp [pathGetter]
    | cons s rest ih =>
      cases v with
      | undef => simp [pathGetter, truthyP]
      | nullV => simp [pathGetter, truthyP]
      | nan => simp [pathGetter, truthyP]
      | boolV b =>
        cases b
        · simp [pathGetter, truthyP]
        · simp [pathGetter, truthyP, getPropP]
          exact ih _
      | num m =>
        by_cases hm : m = 0
        · simp [pathGetter, truthyP, hm]
        · simp [pathGetter, truthyP, getPropP, hm]
          exact ih _
      | str s0 =>
        by_cases hs : s0 = ""
        · simp [pathGetter, truthyP, hs]
        · simp [pathGetter, truthyP, getPropP, hs]
          exact ih _
      | obj fields =>
        simp [pathGetter, truthyP, getPropP]
        exact ih _
  · intro v s rest hseg hv
    subst hseg
    simp [pathGetter, hv]

/-- Nested object `\x7b a: \x7b b: 3 \x7d \x7d` for the path walk. -/
def sampleObj : PathVal :=
  PathVal.obj [("a", PathVal.obj [("b", PathVal.num 3)])]

/-- C10 (witness): `parsePath` accepts `"a.b"`, splitting it into
`["a", "b"]`, and the compiled getter returns on a concrete object. -/
theorem parsePath_getter_total_witness :
    parsePath "a.b" = some ["a", "b"] ∧
    (pathGetter ["a", "b"] sampleObj).isSome = true :=
  ⟨by decide, (parsePath_getter_total "a.b" ["a", "b"] (by decide)).1 sampleObj⟩

/-- Invariant holding at every point of one evaluation's dependency
collection (after `pushTarget`, before `cleanupDeps`): the previous
round's collections are untouched, `newDepIds` and `newDeps` advance in
lockstep without duplicates, and the watcher sits exactly once in the
subscriber array of every dep of the previous round or of the new round,
and nowhere else. -/
def MidInv (deps0 : List Nat) (s : WatcherState) : Prop :=
  s.deps = deps0 ∧ s.depIds = deps0 ∧ s.newDepIds = s.newDeps ∧ s.newDeps.Nodup ∧
  ∀ d, s.subs.count d = if d ∈ deps0 ∨ d ∈ s.newDeps then 1 else 0

/-- A single `addDep` call preserves the collection invariant, and the
newly-collected list afterwards holds exactly the old entries plus the
added id. -/
theorem addDep_midInv {deps0 : List Nat} {s : WatcherState} (h : MidInv deps0 s) (t : Nat) :
    MidInv deps0 (addDep s t) ∧
    (∀ d, d ∈ (addDep s t).newDeps ↔ d ∈ s.newDeps ∨ d = t) := by
  obtain ⟨h1, h2, h3, h4, h5⟩ := h
  by_cases ht : t ∈ s.newDepIds
  · have htn : t ∈ s.newDeps := h3 ▸ ht
    have heq : addDep s t = s := by
      simp [addDep, ht]
    rw [heq]
    refine ⟨⟨h1, h2, h3, h4, h5⟩, fun d => ?_⟩
    constructor
    · exact fun hd => Or.inl hd
    · rintro (hd | rfl)
      · exact hd
      · exact htn
  · have htn : t ∉ s.newDeps := fun hc => ht (h3 ▸ hc)
    by_cases hd : t ∈ s.depIds
    · have htd : t ∈ deps0 := h2 ▸ hd
      have heq : addDep s t
          = { s with newDepIds := s.newDepIds ++ [t], newDeps := s.newDeps ++ [t] } := by
        simp [addDep, ht, hd]
      rw [heq]
      refine ⟨⟨h1, h2, by rw [h3], ?_, ?_⟩, fun d => ?_⟩
      · simp [List.nodup_append, h4, htn]
      · intro d
        rw [h5 d]
        by_cases hdt : d = t
        · subst hdt
          simp [htd]
        · simp [List.mem_append, hdt]
      · simp [List.mem_append]
    · have htd : t ∉ deps0 := fun hc => hd (h2 ▸ hc)
      have heq : addDep s t
          = ⟨s.deps, s.newDeps ++ [t], s.depIds, s.newDepIds ++ [t], s.subs ++ [t]⟩ := by
        simp [addDep, ht, hd]
      rw [heq]
      refine ⟨⟨h1, h2, by rw [h3], ?_, ?_⟩, fun d => ?_⟩
      · simp [List.nodup_append, h4, htn]
      · intro d
        by_cases hdt : d = t
        · subst hdt
          have h0 : s.subs.count d = 0 := by
            rw [h5 d]
            simp [htd, htn]
          simp [List.count_append, h0]
        · have hone : (s.subs ++ [t]).count d = s.subs.count d := by
            simp [List.count_append, List.count_singleton, hdt]
          rw [hone, h5 d]
          simp [List.mem_append, hdt]
      · simp [List.mem_append]

/-- Folding a whole read sequence through `addDep` preserves the
invariant; afterwards the newly-collected list holds exactly the old
entries plus every id read. -/
theorem foldl_addDep_midInv (deps0 : List Nat) (touched : List Nat) :
    ∀ s : WatcherState, MidInv deps0 s →
      MidInv deps0 (touched.foldl addDep s) ∧
      (∀ d, d ∈ (touched.foldl addDep s).newDeps ↔ d ∈ s.newDeps ∨ d ∈ touched) := by
  induction touched with
  | nil =>
    intro s h
    exact ⟨h, fun d => by simp⟩
  | cons t rest ih =>
    intro s h
    obtain ⟨hstep, hstepMem⟩ := addDep_midInv h t
    obtain ⟨hfold, hfoldMem⟩ := ih (addDep s t) hstep
    refine ⟨hfold, fun d => ?_⟩
    rw [List.foldl_cons, hfoldMem d, hstepMem d, List.mem_cons]
    tauto

/-- Count of an element after the removal pass of `cleanupDeps`: one
occurrence is erased exactly for the elements of the (duplicate-free)
walked list that are not kept. -/
theorem count_foldr_erase (keep : List Nat) :
    ∀ deps : List Nat, deps.Nodup → ∀ (subs : List Nat) (d : Nat),
      (deps.foldr (fun x acc => if x ∈ keep then acc else acc.erase x) subs).count d
        = if d ∈ deps ∧ d ∉ keep then subs.count d - 1 else subs.count d := by
  intro deps
  induction deps with
  | nil =>
    intro _ subs d
    simp
  | cons x rest ih =>
    intro hnd subs d
    have hx : x ∉ rest := (List.nodup_cons.mp hnd).1
    have hrest : rest.Nodup := (List.nodup_cons.mp hnd).2
    simp only [List.foldr_cons]
    by_cases hxk : x ∈ keep
    · rw [if_pos hxk, ih hrest subs d]
      by_cases hdx : d = x
      · subst hdx
        simp [hxk, hx]
      · simp [List.mem_cons, hdx]
    · rw [if_neg hxk]
      by_cases hdx : d = x
      · subst hdx
        rw [List.count_erase_self, ih hrest subs d]
        simp [hx, hxk]
      · rw [List.count_erase_of_ne hdx, ih hrest subs d]
        simp [List.mem_cons, hdx]

/-- The invariant at the start of an evaluation, from inter-evaluation
well-formedness. -/
theorem midInv_of_WF (s : WatcherState) (hWF : WatcherWF s) : MidInv s.deps s := by
  obtain ⟨hnd, hids, hnew, hnewIds, hsnd, hsub1, hsub2⟩ := hWF
  refine ⟨rfl, hids, by rw [hnew, hnewIds], by rw [hnew]; exact List.nodup_nil, ?_⟩
  intro d
  rw [hnew]
  simp only [List.not_mem_nil, or_false]
  by_cases hd : d ∈ s.deps
  · rw [if_pos hd]
    exact List.count_eq_one_of_mem hsnd (hsub2 d hd)
  · rw [if_neg hd]
    exact List.count_eq_zero_of_not_mem (fun hc => hd (hsub1 d hc))

/-- After one full evaluation round the watcher is subscribed exactly
once to every dep it touched and to no other, its `deps` list holds
exactly the touched ids, and the inter-evaluation invariant holds
again. -/
theorem watcherEval_state (s : WatcherState) (hWF : WatcherWF s) (touched : List Nat) :
    (∀ d, (watcherEval s touched).subs.count d = if d ∈ touched then 1 else 0) ∧
    (∀ d, d ∈ (watcherEval s touched).deps ↔ d ∈ touched) ∧
    WatcherWF (watcherEval s touched) := by
  obtain ⟨hmid, hmem⟩ :=
    foldl_addDep_midInv s.deps touched s (midInv_of_WF s hWF)
  obtain ⟨hnd, hids, hnew, hnewIds, hsnd, hsub1, hsub2⟩ := hWF
  obtain ⟨m1, m2, m3, m4, m5⟩ := hmid
  have hmemT : ∀ d, d ∈ (touched.foldl addDep s).newDeps ↔ d ∈ touched := by
    intro d
    rw [hmem d, hnew]
    simp
  have hcount : ∀ d,
      (watcherEval s touched).subs.count d = if d ∈ touched then 1 else 0 := by
    intro d
    show ((touched.foldl addDep s).deps.foldr _ (touched.foldl addDep s).subs).count d = _
    rw [count_foldr_erase (touched.foldl addDep s).newDepIds
          (touched.foldl addDep s).deps (m1 ▸ hnd) (touched.foldl addDep s).subs d,
        m5 d, m1, m3]
    by_cases hdT : d ∈ touched
    · have : d ∈ (touched.foldl addDep s).newDeps := (hmemT d).mpr hdT
      simp [this, hdT]
    · have : d ∉ (touched.foldl addDep s).newDeps := fun hc => hdT ((hmemT d).mp hc)
      by_cases hdD : d ∈ s.deps
      · simp [this, hdD, hdT]
      · simp [this, hdD, hdT]
  have hdeps : ∀ d, d ∈ (watcherEval s touched).deps ↔ d ∈ touched := by
    intro d
    show d ∈ (touched.foldl addDep s).newDeps ↔ d ∈ touched
    exact hmemT d
  refine ⟨hcount, hdeps, ?_, ?_, rfl, rfl, ?_, ?_, ?_⟩
  · show (touched.foldl addDep s).newDeps.Nodup
    exact m4
  · show (touched.foldl addDep s).newDepIds = (touched.foldl addDep s).newDeps
    exact m3
  · rw [List.nodup_iff_count_le_one]
    intro d
    rw [hcount d]
    split <;> omega
  · intro d hds
    have := List.count_pos_iff.mpr hds
    rw [hcount d] at this
    rw [hdeps d]
    by_contra hc
    rw [if_neg hc] at this
    omega
  · intro d hdd
    rw [hdeps d] at hdd
    have := hcount d
    rw [if_pos hdd] at this
    exact List.count_pos_iff.mp (by omega)

/-- C3: after an evaluation, every dep the watcher was subscribed to
before but did not touch during the evaluation no longer holds the
watcher in its subscriber array, and every dep touched during the
evaluation holds it (exactly once) — dynamic dependency pruning. -/
theorem watcher_dynamic_pruning (s : WatcherState) (hWF : WatcherWF s) (touched : List Nat) :
    (∀ d, d ∈ s.deps → d ∉ touched → (watcherEval s touched).subs.count d = 0) ∧
    (∀ d, d ∈ touched → (watcherEval s touched).subs.count d = 1) := by
  obtain ⟨hc, -, -⟩ := watcherEval_state s hWF touched
  constructor
  · intro d _ hd2
    rw [hc d, if_neg hd2]
  · intro d hd
    rw [hc d, if_pos hd]

/-- C3 (witness): a watcher subscribed to dep 0 that reads only dep 1 on
re-evaluation ends up unsubscribed from dep 0 and subscribed to
dep 1. -/
theorem watcher_dynamic_pruning_witness :
    (watcherEval ⟨[0], [], [0], [], [0]⟩ [1]).subs.count 0 = 0 ∧
    (watcherEval ⟨[0], [], [0], [], [0]⟩ [1]).subs.count 1 = 1 :=
  ⟨(watcher_dynamic_pruning ⟨[0], [], [0], [], [0]⟩ (by unfold WatcherWF; decide) [1]).1 0
      (by decide) (by decide),
   (watcher_dynamic_pruning ⟨[0], [], [0], [], [0]⟩ (by unfold WatcherWF; decide) [1]).2 1
      (by decide)⟩

/-- C4: the watcher never appears twice in any dep's subscriber array.
`addDep` performs `dep.addSub` only when the id is absent from both id
sets; during an evaluation the newly-collected list stays duplicate-free
and every subscriber count stays at most one, and the same holds after
`cleanupDeps`, whose result is well-formed again (so the bound carries
over successive evaluations). -/
theorem watcher_no_duplicate_subscription (s : WatcherState) (hWF : WatcherWF s)
    (touched : List Nat) :
    (∀ id0, (id0 ∈ s.newDepIds ∨ id0 ∈ s.depIds) → (addDep s id0).subs = s.subs) ∧
    (touched.foldl addDep s).newDeps.Nodup ∧
    (∀ d, (touched.foldl addDep s).subs.count d ≤ 1) ∧
    (∀ d, (watcherEval s touched).subs.count d ≤ 1) ∧
    WatcherWF (watcherEval s touched) := by
  obtain ⟨hmid, -⟩ := foldl_addDep_midInv s.deps touched s (midInv_of_WF s hWF)
  obtain ⟨-, -, -, m4, m5⟩ := hmid
  obtain ⟨hc, -, hwf2⟩ := watcherEval_state s hWF touched
  refine ⟨?_, m4, ?_, ?_, hwf2⟩
  · intro id0 hid
    by_cases ht : id0 ∈ s.newDepIds
    · simp [addDep, ht]
    · have hd : id0 ∈ s.depIds := hid.resolve_left ht
      simp [addDep, ht, hd]
  · intro d
    rw [m5 d]
    split <;> omega
  · intro d
    rw [hc d]
    split <;> omega

/-- C4 (witness): reading the same dep twice in one evaluation of a fresh
watcher yields a single subscription, and the post-evaluation state is
well-formed. -/
theorem watcher_no_duplicate_subscription_witness :
    (([7, 7] : List Nat).foldl addDep ⟨[], [], [], [], []⟩).subs.count 7 ≤ 1 ∧
    WatcherWF (watcherEval ⟨[], [], [], [], []⟩ [7, 7]) :=
  ⟨(watcher_no_duplicate_subscription ⟨[], [], [], [], []⟩
      (by unfold WatcherWF; decide) [7, 7]).2.2.1 7,
   (watcher_no_duplicate_subscription ⟨[], [], [], [], []⟩
      (by unfold WatcherWF; decide) [7, 7]).2.2.2.2⟩

/-- Observed target whose only own property is `toString`
(`vmCount = 0`, not a Vue instance). -/
def toStringTarget : MapTarget :=
  { own := [("toString", JSVal.num 0)], protoKeys := [], isVue := false, ob := some 0 }

/-- C5 (counterexample): `"toString"` is an own property of the target,
yet `set` does not take the plain-assignment branch — the guard is
`key in target && !(key in Object.prototype)` and `toString` is a key of
`Object.prototype` — so `set` defines a reactive property and notifies
the container dependency once, contradicting the claim's first case
("plain assignment ... without touching the container Dependency"). -/
theorem set_own_toString_not_plain :
    (toStringTarget.own.any (fun kv => kv.1 == "toString")) = true ∧
    (setField toStringTarget "toString" (JSVal.num 1)).notified = 1 ∧
    (setField toStringTarget "toString" (JSVal.num 1)).definedReactive = true := by
  refine ⟨rfl, ?_, ?_⟩ <;> rfl

/-- C5 (amended): for a mapping target, `set` is the four-way case split
of the source.  If the key is found by the `in` operator on the target
(own properties or its prototype chain) and is not a key of
`Object.prototype`, it performs a plain assignment and returns `val`
without touching the container dependency.  Otherwise, if the target is
a Vue instance or a root data container (`vmCount > 0`), nothing is
mutated and `val` is returned.  Otherwise, if the target has no
observer, it performs a plain assignment with no reactivity.  Otherwise
it defines a new reactive property on the observed value and calls the
container observer's `dep.notify()` exactly once. -/
theorem set_mapping_cases (t : MapTarget) (key : String) (val : JSVal) :
    (hasKeyInChain t key = true →
      setField t key val
        = { target := assignOwn t key val, notified := 0, definedReactive := false, ret := val }) ∧
    (hasKeyInChain t key = false → (t.isVue = true ∨ obIsRoot t.ob = true) →
      setField t key val
        = { target := t, notified := 0, definedReactive := false, ret := val }) ∧
    (hasKeyInChain t key = false → t.isVue = false → obIsRoot t.ob = false → t.ob = none →
      setField t key val
        = { target := assignOwn t key val, notified := 0, definedReactive := false, ret := val }) ∧
    (∀ c, hasKeyInChain t key = false → t.isVue = false → obIsRoot t.ob = false →
      t.ob = some c →
      setField t key val
        = { target := assignOwn t key val, notified := 1, definedReactive := true, ret := val }) := by
  refine ⟨fun h1 => ?_, fun h1 h2 => ?_, fun h1 h2 h3 hob => ?_, fun c h1 h2 h3 hob => ?_⟩
  · simp [setField, h1]
  · rcases h2 with h2 | h2 <;> simp [setField, h1, h2]
  · rw [hob] at h3
    simp [setField, h1, h2, h3, hob, obIsRoot]
  · rw [hob] at h3
    simp [setField, h1, h2, h3, hob]

/-- C5 (witness): a fresh key on an observed non-root target defines a
reactive property and notifies once; an ordinary existing own key is
plainly assigned with no notification. -/
theorem set_mapping_cases_witness :
    setField { own := [], protoKeys := [], isVue := false, ob := some 0 } "a" (JSVal.num 1)
      = { target := { own := [("a", JSVal.num 1)], protoKeys := [], isVue := false, ob := some 0 },
          notified := 1, definedReactive := true, ret := JSVal.num 1 } ∧
    setField { own := [("a", JSVal.num 0)], protoKeys := [], isVue := false, ob := some 0 } "a"
        (JSVal.num 1)
      = { target := { own := [("a", JSVal.num 1)], protoKeys := [], isVue := false, ob := some 0 },
          notified := 0, definedReactive := false, ret := JSVal.num 1 } :=
  ⟨(set_mapping_cases { own := [], protoKeys := [], isVue := false, ob := some 0 }
      "a" (JSVal.num 1)).2.2.2 0 (by decide) rfl rfl rfl,
   (set_mapping_cases { own := [("a", JSVal.num 0)], protoKeys := [], isVue := false, ob := some 0 }
      "a" (JSVal.num 1)).1 (by decide)⟩

/-- Spec-side reading of the `<input>` condition: for tag `input` the
`type` attributes match (strictly) or are both text-input categories. -/
def inputTypeCompat (a b : VNodeM) : Prop :=
  a.tag = some "input" →
    (jsStrictEq (inputTypeOf a) (inputTypeOf b) = true ∨
     (isTextInputType (inputTypeOf a) = true ∧ isTextInputType (inputTypeOf b) = true))

/-- Spec-side reading of "that factory has no error": a factory is
present and its `error` is not defined. -/
def factoryNoError : Option AsyncFactory → Prop
  | some f => f.errorDefined = false
  | none => False

/-- Spec-side definition of the node identity check, written from the
claim: keys strictly equal, and either tag, comment flag, data presence
and (for inputs) type category all match, or `a` is an async placeholder
sharing `b`'s factory and that factory has no error. -/
def sameVnodeSpec (a b : VNodeM) : Prop :=
  jsStrictEq a.key b.key = true ∧
  ((a.tag = b.tag ∧ a.isComment = b.isComment ∧ a.data.isSome = b.data.isSome ∧
      inputTypeCompat a b) ∨
   (a.isAsyncPlaceholder = true ∧ a.asyncFactory = b.asyncFactory ∧
      factoryNoError b.asyncFactory))

/-- The boolean `sameInputType` agrees with the spec-side condition. -/
theorem sameInputType_iff (a b : VNodeM) : sameInputType a b = true ↔ inputTypeCompat a b := by
  unfold sameInputType inputTypeCompat
  by_cases ht : a.tag = some "input"
  · simp [ht]
  · simp [ht]

/-- Reference equality of optional factories agrees with equality. -/
theorem optFacEq_iff (x y : Option AsyncFactory) : optFacEq x y = true ↔ x = y := by
  cases x <;> cases y <;> simp [optFacEq]

/-- The element branch of `sameVnode` agrees with the spec-side
conjunction. -/
theorem sameVnode_branch1_iff (a b : VNodeM) :
    (a.tag == b.tag && a.isComment == b.isComment && a.data.isSome == b.data.isSome
      && sameInputType a b) = true
    ↔ (a.tag = b.tag ∧ a.isComment = b.isComment ∧ a.data.isSome = b.data.isSome ∧
        inputTypeCompat a b) := by
  simp only [Bool.and_eq_true, beq_iff_eq, sameInputType_iff]
  tauto

/-- C6: for nodes whose async-placeholder flag implies a factory is
attached (every placeholder the system builds carries one — without
this, `sameVnode` would read `error` off `undefined`), `sameVnode`
returns without throwing and answers `true` exactly when the claim's
characterization holds. -/
theorem sameVnode_matches_spec (a b : VNodeM)
    (h : a.isAsyncPlaceholder = true → a.asyncFactory ≠ none) :
    ∃ r, sameVnode a b = some r ∧ (r = true ↔ sameVnodeSpec a b) := by
  by_cases hk : jsStrictEq a.key b.key = true
  case neg =>
    refine ⟨false, by simp [sameVnode, hk], ?_⟩
    simp [sameVnodeSpec, hk]
  case pos =>
  by_cases h1 : (a.tag == b.tag && a.isComment == b.isComment
      && a.data.isSome == b.data.isSome && sameInputType a b) = true
  · refine ⟨true, by simp [sameVnode, hk, h1], ?_⟩
    simp only [true_iff]
    exact ⟨hk, Or.inl ((sameVnode_branch1_iff a b).mp h1)⟩
  · have h1p : ¬(a.tag = b.tag ∧ a.isComment = b.isComment ∧ a.data.isSome = b.data.isSome ∧
        inputTypeCompat a b) :=
      fun hc => h1 ((sameVnode_branch1_iff a b).mpr hc)
    by_cases hap : a.isAsyncPlaceholder = true
    · obtain ⟨fa, hfa⟩ : ∃ fa, a.asyncFactory = some fa := by
        cases hfa : a.asyncFactory
        · exact absurd hfa (h hap)
        · exact ⟨_, rfl⟩
      by_cases hfe : optFacEq a.asyncFactory b.asyncFactory = true
      · have hxy : a.asyncFactory = b.asyncFactory := (optFacEq_iff _ _).mp hfe
        obtain ⟨fb, hfb⟩ : ∃ fb, b.asyncFactory = some fb := ⟨fa, hxy ▸ hfa⟩
        have hfa2 : a.asyncFactory = some fb := by rw [hxy, hfb]
        refine ⟨!fb.errorDefined, by simp [sameVnode, hk, h1, hap, hfa2, hfb, optFacEq], ?_⟩
        constructor
        · intro hr
          have herr : fb.errorDefined = false := by
            revert hr
            cases fb.errorDefined <;> simp
          refine ⟨hk, Or.inr ⟨hap, hxy, ?_⟩⟩
          rw [hfb]
          exact herr
        · rintro ⟨-, hc | ⟨-, -, hne⟩⟩
          · exact absurd hc h1p
          · rw [hfb] at hne
            have herr : fb.errorDefined = false := hne
            simp [herr]
      · refine ⟨false, by simp [sameVnode, hk, h1, hap, hfe], ?_⟩
        constructor
        · intro hff
          exact Bool.noConfusion hff
        · rintro ⟨-, hc | ⟨-, hxy, -⟩⟩
          · exact absurd hc h1p
          · exact absurd ((optFacEq_iff _ _).mpr hxy) hfe
    · refine ⟨false, by simp [sameVnode, hk, h1, hap], ?_⟩
      constructor
      · intro hff
        exact Bool.noConfusion hff
      · rintro ⟨-, hc | ⟨hap2, -, -⟩⟩
        · exact absurd hc h1p
        · exact absurd hap2 hap

/-- C6 (witness): the check applied to a concrete pair of identical
keyed elements. -/
theorem sameVnode_matches_spec_witness :
    ∃ r, sameVnode nodeA nodeA = some r ∧ (r = true ↔ sameVnodeSpec nodeA nodeA) :=
  sameVnode_matches_spec nodeA nodeA (fun hcontra => Bool.noConfusion hcontra)
